import Mathlib

/-!
Verification of the SpotifyPartyQueue core: a shallow embedding of the
SQLite-backed store (`db_api.py`), the business logic (`business_logic.py`)
and the boundary of the Spotify adapter (`spotify_api.py`).

Timestamps are modelled as whole seconds (UTC) of type `Int`; the stored
ISO round-trip in `db_api.py` drops sub-second precision, so whole seconds
are exact.  Auto-increment row ids are modelled by explicit counters held
next to the tables.  A raised Python exception is modelled by
`Except.error`; a returned value by `Except.ok`.
-/

namespace PartyQueue

/-- A track as produced by the external catalog (`song.Song`):
identifier, name, artist. -/
structure Song where
  song_id : String
  name : String
  artist : String
deriving DecidableEq

/-- A row of the `song` table: identifier (primary key), metadata,
and the nullable `last_played` timestamp. -/
structure SongRow where
  id : String
  name : String
  artist : String
  last_played : Option Int
deriving DecidableEq

/-- A row of the `app_queue` table: auto-increment id (the ordinal) and
the song identifier (UNIQUE, foreign key into `song`). -/
structure QueueRow where
  id : Nat
  song_id : String
deriving DecidableEq

/-- A row of the `votes` table, primary key (app_queue_id, client_id). -/
structure VoteRow where
  app_queue_id : Nat
  client_id : String
  vote : Int
deriving DecidableEq

/-- A row of the `last_added_songs` ledger table: auto-increment id and
song identifier. -/
structure LedgerRow where
  id : Nat
  song_id : String
deriving DecidableEq

/-- The database state: the four tables plus the auto-increment counters
for `app_queue.id` and `last_added_songs.id`.  Lists hold rows in
insertion (rowid) order, which is the order SQLite scans them in. -/
structure DB where
  songs : List SongRow
  app_queue : List QueueRow
  votes : List VoteRow
  last_added_songs : List LedgerRow
  next_queue_id : Nat
  next_ledger_id : Nat
deriving DecidableEq

/-- `SELECT ... FROM song WHERE id = ?` with `fetchone`: the first matching
row of the `song` table. -/
def find_song_row (id : String) (db : DB) : Option SongRow :=
  db.songs.find? (fun r => r.id == id)

/-- `db_api.add_song`: insert the song into `song` (with `last_played`
NULL) if absent; return the stored `last_played` (or `none`). -/
def add_song (s : Song) (db : DB) : Option Int × DB :=
  match find_song_row s.song_id db with
  | some r => (r.last_played, db)
  | none =>
      (none, { db with songs := db.songs ++ [⟨s.song_id, s.name, s.artist, none⟩] })

/-- `db_api.get_song`: look the song up by id. -/
def get_song (id : String) (db : DB) : Option Song :=
  (find_song_row id db).map (fun r => ⟨r.id, r.name, r.artist⟩)

/-- `db_api.set_last_played`: `UPDATE song SET last_played = ? WHERE id = ?`. -/
def set_last_played (s : Song) (t : Int) (db : DB) : DB :=
  { db with
    songs := db.songs.map
      (fun r => if r.id == s.song_id then { r with last_played := some t } else r) }

/-- `db_api.add_song_to_app_queue`: `INSERT INTO app_queue (song_id)`;
an `IntegrityError` (UNIQUE violation on `song_id`, or foreign-key
violation when the song is not in `song`) is caught and yields `false`. -/
def db_add_song_to_app_queue (s : Song) (db : DB) : Bool × DB :=
  if (find_song_row s.song_id db).isSome
      && db.app_queue.all (fun q => !(q.song_id == s.song_id)) then
    (true,
      { db with
        app_queue := db.app_queue ++ [⟨db.next_queue_id, s.song_id⟩],
        next_queue_id := db.next_queue_id + 1 })
  else (false, db)

/-- `db_api._get_app_queue_id`: the `app_queue.id` of the row holding the
given song identifier, if any. -/
def get_app_queue_id (song_id : String) (db : DB) : Option Nat :=
  (db.app_queue.find? (fun q => q.song_id == song_id)).map (fun q => q.id)

/-- `db_api.check_song_in_app_queue`: `SELECT 1 FROM app_queue WHERE song_id = ?`. -/
def check_song_in_app_queue (s : Song) (db : DB) : Bool :=
  (db.app_queue.find? (fun q => q.song_id == s.song_id)).isSome

/-- `COALESCE(SUM(v.vote), 0)` over the votes of one queue entry. -/
def voteSumFor (db : DB) (qid : Nat) : Int :=
  ((db.votes.filter (fun v => v.app_queue_id == qid)).map (fun v => v.vote)).sum

/-- `SUM(CASE WHEN v.client_id = ? THEN v.vote END)` for one queue entry;
a NULL result (no client given, or client has no vote) reads as `0`
after the Python-side conversion. -/
def clientVoteFor (db : DB) (client : Option String) (qid : Nat) : Int :=
  match client with
  | none => 0
  | some c =>
      ((db.votes.filter
          (fun v => v.app_queue_id == qid && v.client_id == c)).map
        (fun v => v.vote)).sum

/-- The conflict test of the votes primary key (app_queue_id, client_id). -/
def vote_key (qid : Nat) (c : String) (w : VoteRow) : Bool :=
  w.app_queue_id == qid && w.client_id == c

/-- `INSERT ... ON CONFLICT(app_queue_id, client_id) DO UPDATE SET vote`:
overwrite the conflicting row's vote in place, else append a new row.
(A row matching `vote_key qid c` has key fields equal to `(qid, c)`, so
overwriting its vote yields exactly the row `⟨qid, c, v⟩`.) -/
def upsert_vote (qid : Nat) (c : String) (v : Int) (votes : List VoteRow) :
    List VoteRow :=
  if votes.any (vote_key qid c) then
    votes.map (fun w => if vote_key qid c w then ⟨qid, c, v⟩ else w)
  else votes ++ [⟨qid, c, v⟩]

/-- `db_api.vote_song`: resolve the queue entry; `false` if the song is not
queued, else upsert the vote and return `true`. -/
def vote_song (s : Song) (c : String) (v : Int) (db : DB) : Bool × DB :=
  match get_app_queue_id s.song_id db with
  | none => (false, db)
  | some qid => (true, { db with votes := upsert_vote qid c v db.votes })

/-- The `ORDER BY vote_sum DESC, qid ASC` comparison on queue rows. -/
def qOrder (db : DB) (a b : QueueRow) : Prop :=
  voteSumFor db b.id < voteSumFor db a.id ∨
    (voteSumFor db a.id = voteSumFor db b.id ∧ a.id ≤ b.id)

instance (db : DB) : DecidableRel (qOrder db) := fun a b => by
  unfold qOrder; exact inferInstance

/-- `db_api.get_most_voted_song`: `none` when the `votes` table is empty,
else the song id of the first queue row under
`ORDER BY total DESC, qid ASC LIMIT 1`. -/
def get_most_voted_song (db : DB) : Option String :=
  if db.votes.isEmpty then none
  else ((db.app_queue.insertionSort (qOrder db)).head?).map (fun q => q.song_id)

/-- `db_api.clear_votes`: delete all votes of the song's queue entry;
a no-op returning `true` when the song is not queued. -/
def clear_votes (s : Song) (db : DB) : Bool × DB :=
  match get_app_queue_id s.song_id db with
  | none => (true, db)
  | some qid =>
      (true, { db with votes := db.votes.filter (fun v => !(v.app_queue_id == qid)) })

/-- The `app_queue JOIN song` rows: each queue row paired with its song row. -/
def joined_queue (db : DB) : List (QueueRow × SongRow) :=
  db.app_queue.filterMap (fun q => (find_song_row q.song_id db).map (fun r => (q, r)))

/-- The join ordering `ORDER BY aq.id ASC` on joined rows. -/
def idOrder (a b : QueueRow × SongRow) : Prop :=
  a.1.id ≤ b.1.id

instance : DecidableRel idOrder := fun a b => by
  unfold idOrder; exact inferInstance

/-- `db_api.get_oldest_song`: the song of the joined row with the least
queue id, or `none` when the queue is empty. -/
def get_oldest_song (db : DB) : Option Song :=
  (((joined_queue db).insertionSort idOrder).head?).map
    (fun p => ⟨p.2.id, p.2.name, p.2.artist⟩)

/-- The `qOrder` comparison lifted to joined rows. -/
def pairOrder (db : DB) (a b : QueueRow × SongRow) : Prop :=
  qOrder db a.1 b.1

instance (db : DB) : DecidableRel (pairOrder db) := fun a b => by
  unfold pairOrder; exact inferInstance

/-- `db_api.get_app_queue`: `(Song, vote_sum, client_vote)` for every queued
song, `ORDER BY vote_sum DESC, qid ASC`. -/
def get_app_queue (client : Option String) (db : DB) : List (Song × Int × Int) :=
  ((joined_queue db).insertionSort (pairOrder db)).map
    (fun p =>
      (⟨p.2.id, p.2.name, p.2.artist⟩, voteSumFor db p.1.id,
        clientVoteFor db client p.1.id))

/-- `db_api.remove_song_from_app_queue`: delete the song's queue rows
(`ON DELETE CASCADE` removes their votes); return the song iff a row
was deleted. -/
def remove_song_from_app_queue (s : Song) (db : DB) : Option Song × DB :=
  let removed := db.app_queue.filter (fun q => q.song_id == s.song_id)
  (if removed.isEmpty then none else some s,
    { db with
      app_queue := db.app_queue.filter (fun q => !(q.song_id == s.song_id)),
      votes := db.votes.filter (fun v => !(removed.any (fun q => q.id == v.app_queue_id))) })

/-- `db_api.get_last_added_song_ids`: the ids of the last `n` ledger rows,
most recent first (`ORDER BY id DESC LIMIT n`; rows are stored in
ascending id order, so this is reverse-then-take). -/
def get_last_added_song_ids (n : Nat) (db : DB) : List String :=
  ((db.last_added_songs.reverse).take n).map (fun r => r.song_id)

/-- `db_api.add_last_added_song_id`: append a ledger row; the foreign key
into `song` makes the insert fail (returning `false`) when the song is
not in the catalog. -/
def add_last_added_song_id (song_id : String) (db : DB) : Bool × DB :=
  if (find_song_row song_id db).isSome then
    (true,
      { db with
        last_added_songs := db.last_added_songs ++ [⟨db.next_ledger_id, song_id⟩],
        next_ledger_id := db.next_ledger_id + 1 })
  else (false, db)

/-- `business_logic.add_song_to_app_queue`.  The result of
`sp.search_song(song_id)` is passed in as `resolved`; when it is `none`
the function raises `Exception("Track not found on Spotify.")`, modelled
as `Except.error`. -/
def bl_add_song_to_app_queue (resolved : Option Song) (now : Int) (db : DB) :
    Except String (Bool × DB) :=
  match resolved with
  | none => Except.error "Track not found on Spotify."
  | some song =>
    let res := add_song song db
    let db1 := res.2
    if check_song_in_app_queue song db1 then Except.ok (false, db1)
    else if (match res.1 with
             | some lp => decide (now - lp < 1800)
             | none => false) then Except.ok (false, db1)
    else Except.ok (db_add_song_to_app_queue song db1)

/-- `business_logic.vote_song`: forwards to the store layer. -/
def bl_vote_song (s : Song) (c : String) (v : Int) (db : DB) : Bool × DB :=
  vote_song s c v db

/-- `business_logic._pick_next_song`.  The Python truthiness test
`if most_voted_song_id:` treats the empty string like `None`. -/
def pick_next_song (db : DB) : Option Song :=
  match get_most_voted_song db with
  | some id =>
      if id = "" then get_oldest_song db
      else
        match get_song id db with
        | some c => some c
        | none => get_oldest_song db
  | none => get_oldest_song db

/-- The selection-and-injection phase of `business_logic.check_sp_queue`
(lines 116-151): pick a candidate, push it via the adapter, and on push
success run the best-effort bookkeeping sequence (ledger append, queue
removal with vote cascade, vote clear, `last_played` update). -/
def run_injection (push : Song → Bool) (now : Int) (db : DB) : Bool × DB :=
  match pick_next_song db with
  | none => (false, db)
  | some next =>
    if push next then
      let db1 := (add_last_added_song_id next.song_id db).2
      let db2 := (remove_song_from_app_queue next db1).2
      let db3 := (clear_votes next db2).2
      let db4 := set_last_played next now db3
      (true, db4)
    else (false, db)

/-- `business_logic.check_sp_queue`.  The external snapshot returned by
`sp.get_queue()` (currently playing followed by the queued tracks) is
passed in as `snapshot`; the adapter's `add_song_to_queue` as `push`. -/
def check_sp_queue (snapshot : List Song) (push : Song → Bool) (now : Int)
    (db : DB) : Bool × DB :=
  let last := get_last_added_song_ids 2 db
  if last.length ≤ 1
      ∨ (snapshot.countP (fun s => decide (s.song_id ∈ last))) ≤ 1 then
    run_injection push now db
  else (false, db)

/-- Well-formedness of a database state: the constraints SQLite enforces
through primary keys, the UNIQUE constraint on `app_queue.song_id`, the
foreign keys, plus the fact that catalog identifiers are non-empty
(every stored song comes from the Spotify adapter, which never produces
an empty track id). -/
def DB.wf (db : DB) : Prop :=
  (db.songs.map SongRow.id).Nodup ∧
  (db.app_queue.map QueueRow.id).Nodup ∧
  (db.app_queue.map QueueRow.song_id).Nodup ∧
  (∀ q ∈ db.app_queue, q.song_id ≠ "" ∧ (find_song_row q.song_id db).isSome) ∧
  (∀ v ∈ db.votes, ∃ q ∈ db.app_queue, q.id = v.app_queue_id) ∧
  (db.votes.map (fun v => (v.app_queue_id, v.client_id))).Nodup

instance (db : DB) : Decidable db.wf := by
  unfold DB.wf; exact inferInstance

/-! ### Sorting helper lemmas -/

theorem insertionSort_nil_iff {α : Type} (r : α → α → Prop) [DecidableRel r]
    (l : List α) : l.insertionSort r = [] ↔ l = [] := by
  constructor
  · intro h
    have hp := List.perm_insertionSort r l
    rw [h] at hp
    exact hp.symm.eq_nil
  · intro h; subst h; rfl

/-- The head of an insertion sort by a total transitive relation is a
member of the list that is related to every member. -/
theorem head_insertionSort_min {α : Type} (r : α → α → Prop) [DecidableRel r]
    (htot : ∀ a b, r a b ∨ r b a) (htrans : ∀ a b c, r a b → r b c → r a c)
    (l : List α) (x : α) (hx : (l.insertionSort r).head? = some x) :
    x ∈ l ∧ ∀ y ∈ l, r x y := by
  haveI : IsTotal α r := ⟨htot⟩
  haveI : IsTrans α r := ⟨fun a b c => htrans a b c⟩
  have hs := List.sorted_insertionSort r l
  have hperm := List.perm_insertionSort r l
  cases hsl : l.insertionSort r with
  | nil => rw [hsl] at hx; cases hx
  | cons a t =>
    rw [hsl] at hx hs hperm
    have hax : a = x := by simpa using hx
    subst hax
    refine ⟨hperm.mem_iff.mp (List.mem_cons_self a t), fun y hy => ?_⟩
    rcases List.mem_cons.mp (hperm.mem_iff.mpr hy) with h | h
    · subst h; rcases htot y y with h | h <;> exact h
    · exact List.rel_of_sorted_cons hs y h

theorem qOrder_total (db : DB) (a b : QueueRow) :
    qOrder db a b ∨ qOrder db b a := by
  unfold qOrder; omega

theorem qOrder_trans (db : DB) (a b c : QueueRow)
    (h1 : qOrder db a b) (h2 : qOrder db b c) : qOrder db a c := by
  unfold qOrder at *; omega

theorem qOrder_antisymm_id (db : DB) (a b : QueueRow)
    (h1 : qOrder db a b) (h2 : qOrder db b a) : a.id = b.id := by
  unfold qOrder at *; omega

theorem pairOrder_total (db : DB) (a b : QueueRow × SongRow) :
    pairOrder db a b ∨ pairOrder db b a :=
  qOrder_total db a.1 b.1

theorem pairOrder_trans (db : DB) (a b c : QueueRow × SongRow)
    (h1 : pairOrder db a b) (h2 : pairOrder db b c) : pairOrder db a c :=
  qOrder_trans db a.1 b.1 c.1 h1 h2

theorem idOrder_total (a b : QueueRow × SongRow) : idOrder a b ∨ idOrder b a := by
  unfold idOrder; omega

theorem idOrder_trans (a b c : QueueRow × SongRow)
    (h1 : idOrder a b) (h2 : idOrder b c) : idOrder a c := by
  unfold idOrder at *; omega

/-! ### Characterizations of the store queries -/

theorem find_song_row_id (id : String) (db : DB) (r : SongRow)
    (h : find_song_row id db = some r) : r.id = id ∧ r ∈ db.songs := by
  unfold find_song_row at h
  exact ⟨by simpa using List.find?_some h, List.mem_of_find?_eq_some h⟩

theorem mem_joined_queue (db : DB) (p : QueueRow × SongRow) :
    p ∈ joined_queue db ↔
      p.1 ∈ db.app_queue ∧ find_song_row p.1.song_id db = some p.2 := by
  unfold joined_queue
  rw [List.mem_filterMap]
  constructor
  · rintro ⟨q, hq, hf⟩
    rcases Option.map_eq_some'.mp hf with ⟨r, hr, hqr⟩
    cases p
    cases hqr
    exact ⟨hq, hr⟩
  · rintro ⟨hq, hf⟩
    exact ⟨p.1, hq, by rw [hf]; rfl⟩

/-- `get_most_voted_song` when at least one vote exists: it returns the
song id of a queue row that is `qOrder`-least (max vote sum, tie broken
by least ordinal). -/
theorem get_most_voted_spec (db : DB)
    (hfk : ∀ v ∈ db.votes, ∃ q ∈ db.app_queue, q.id = v.app_queue_id)
    (hv : db.votes ≠ []) :
    ∃ q ∈ db.app_queue, get_most_voted_song db = some q.song_id ∧
      ∀ q' ∈ db.app_queue, qOrder db q q' := by
  obtain ⟨v, hvmem⟩ := List.exists_mem_of_ne_nil _ hv
  obtain ⟨q0, hq0, -⟩ := hfk v hvmem
  have hne : db.app_queue ≠ [] := List.ne_nil_of_mem hq0
  cases hh : (db.app_queue.insertionSort (qOrder db)).head? with
  | none =>
      rw [List.head?_eq_none_iff] at hh
      exact absurd ((insertionSort_nil_iff (qOrder db) _).mp hh) hne
  | some q =>
      obtain ⟨hmem, hmin⟩ :=
        head_insertionSort_min (qOrder db) (qOrder_total db) (qOrder_trans db)
          db.app_queue q hh
      refine ⟨q, hmem, ?_, hmin⟩
      unfold get_most_voted_song
      rw [if_neg (by simpa [List.isEmpty_iff] using hv), hh]
      rfl

/-- `get_oldest_song` on a non-empty queue whose rows all resolve in the
catalog: it returns the song of the queue row with the least ordinal. -/
theorem get_oldest_spec (db : DB)
    (hfk : ∀ q ∈ db.app_queue, (find_song_row q.song_id db).isSome)
    (hne : db.app_queue ≠ []) :
    ∃ p ∈ joined_queue db,
      get_oldest_song db = some ⟨p.2.id, p.2.name, p.2.artist⟩ ∧
      ∀ q' ∈ db.app_queue, p.1.id ≤ q'.id := by
  have hjne : joined_queue db ≠ [] := by
    obtain ⟨q0, hq0⟩ := List.exists_mem_of_ne_nil _ hne
    obtain ⟨r, hr⟩ := Option.isSome_iff_exists.mp (hfk q0 hq0)
    have : (q0, r) ∈ joined_queue db := (mem_joined_queue db (q0, r)).mpr ⟨hq0, hr⟩
    exact List.ne_nil_of_mem this
  cases hh : ((joined_queue db).insertionSort idOrder).head? with
  | none =>
      rw [List.head?_eq_none_iff] at hh
      exact absurd ((insertionSort_nil_iff idOrder _).mp hh) hjne
  | some p =>
      obtain ⟨hmem, hmin⟩ :=
        head_insertionSort_min idOrder idOrder_total idOrder_trans
          (joined_queue db) p hh
      refine ⟨p, hmem, ?_, ?_⟩
      · unfold get_oldest_song
        rw [hh]
        rfl
      · intro q' hq'
        obtain ⟨r', hr'⟩ := Option.isSome_iff_exists.mp (hfk q' hq')
        have : (q', r') ∈ joined_queue db := (mem_joined_queue db (q', r')).mpr ⟨hq', hr'⟩
        exact hmin (q', r') this

/-! ### Claim C1 -/

/-- C1: For every well-formed queue state: if at least one vote exists,
`_pick_next_song` returns the song of the queue entry with the maximum
vote sum, ties broken by the smallest ordinal (earliest admitted); if no
votes exist at all, it returns the song of the queue entry with the
smallest ordinal; if the queue is empty, it returns no song. -/
theorem selection_picks_max_votes_tie_oldest (db : DB) (hwf : db.wf) :
    (db.app_queue = [] → pick_next_song db = none) ∧
    (db.votes ≠ [] →
      ∃ q ∈ db.app_queue,
        (∀ q' ∈ db.app_queue,
            voteSumFor db q'.id < voteSumFor db q.id ∨
              (voteSumFor db q'.id = voteSumFor db q.id ∧ q.id ≤ q'.id)) ∧
        pick_next_song db = get_song q.song_id db ∧
        (get_song q.song_id db).isSome = true) ∧
    (db.votes = [] → db.app_queue ≠ [] →
      ∃ q ∈ db.app_queue,
        (∀ q' ∈ db.app_queue, q.id ≤ q'.id) ∧
        pick_next_song db = get_song q.song_id db ∧
        (get_song q.song_id db).isSome = true) := by
  obtain ⟨-, -, -, hqok, hfk, -⟩ := hwf
  refine ⟨?_, ?_, ?_⟩
  · intro hq
    have hv : db.votes = [] := by
      cases hcv : db.votes with
      | nil => rfl
      | cons v t =>
        obtain ⟨q, hqm, -⟩ := hfk v (by rw [hcv]; exact List.mem_cons_self v t)
        rw [hq] at hqm
        cases hqm
    simp [pick_next_song, get_most_voted_song, get_oldest_song, joined_queue, hq, hv]
  · intro hv
    obtain ⟨q, hq, hgm, hmin⟩ := get_most_voted_spec db hfk hv
    obtain ⟨hne, hsome⟩ := hqok q hq
    obtain ⟨r, hr⟩ := Option.isSome_iff_exists.mp hsome
    refine ⟨q, hq, ?_, ?_, ?_⟩
    · intro q' hq'
      have h := hmin q' hq'
      unfold qOrder at h
      omega
    · unfold pick_next_song
      rw [hgm]
      simp only [if_neg hne]
      unfold get_song
      rw [hr]
      rfl
    · unfold get_song
      rw [hr]
      rfl
  · intro hv hne
    have hfind : ∀ q ∈ db.app_queue, (find_song_row q.song_id db).isSome :=
      fun q hq => (hqok q hq).2
    obtain ⟨p, hp, hold, hmin⟩ := get_oldest_spec db hfind hne
    obtain ⟨hp1, hp2⟩ := (mem_joined_queue db p).mp hp
    refine ⟨p.1, hp1, hmin, ?_, ?_⟩
    · unfold pick_next_song
      have hgm : get_most_voted_song db = none := by
        unfold get_most_voted_song
        rw [if_pos (by simp [hv])]
      rw [hgm, hold]
      unfold get_song
      rw [hp2]
      rfl
    · unfold get_song
      rw [hp2]
      rfl

/-- A concrete two-song state: song A (ordinal 1, vote sum 6), song B
(ordinal 2, vote sum -1). -/
def exDB1 : DB :=
  ⟨[⟨"A", "a", "x", none⟩, ⟨"B", "b", "y", none⟩],
    [⟨1, "A"⟩, ⟨2, "B"⟩],
    [⟨1, "c1", 1⟩, ⟨1, "c2", 5⟩, ⟨2, "c3", -1⟩],
    [], 3, 1⟩

/-- Witness for C1: on `exDB1` the hypotheses hold and selection returns
song A. -/
theorem selection_picks_max_votes_tie_oldest_witness :
    exDB1.wf ∧ pick_next_song exDB1 = some ⟨"A", "a", "x"⟩ := by
  refine ⟨by decide, ?_⟩
  obtain ⟨-, h2, -⟩ := selection_picks_max_votes_tie_oldest exDB1 (by decide)
  obtain ⟨q, hq, hmax, hpick, -⟩ := h2 (by decide)
  simp only [exDB1, List.mem_cons, List.not_mem_nil, or_false] at hq
  rcases hq with h | h
  · subst h
    rw [hpick]
    decide
  · subst h
    exact absurd (hmax ⟨1, "A"⟩ (by decide)) (by decide)

/-! ### Voting lemmas -/

theorem vote_key_self (qid : Nat) (c : String) (v : Int) :
    vote_key qid c ⟨qid, c, v⟩ = true := by
  unfold vote_key
  simp

theorem any_key_overwrite (qid : Nat) (c : String) (v : Int) (l : List VoteRow) :
    (l.map (fun w => if vote_key qid c w then ⟨qid, c, v⟩ else w)).any
        (vote_key qid c) = l.any (vote_key qid c) := by
  induction l with
  | nil => rfl
  | cons a t ih =>
    by_cases hk : vote_key qid c a = true
    · simp [hk, vote_key_self]
    · simp [hk, ih]

/-- Upserting twice for the same (entry, client) key is the same as
upserting the last value once: last write wins. -/
theorem upsert_upsert (qid : Nat) (c : String) (v1 v2 : Int)
    (votes : List VoteRow) :
    upsert_vote qid c v2 (upsert_vote qid c v1 votes)
      = upsert_vote qid c v2 votes := by
  unfold upsert_vote
  cases h : votes.any (vote_key qid c) with
  | true =>
    simp only [h, if_true]
    rw [any_key_overwrite, h]
    simp only [if_true]
    rw [List.map_map]
    apply List.map_congr_left
    intro w hw
    by_cases hk : vote_key qid c w = true
    · simp [Function.comp, hk, vote_key_self]
    · simp [Function.comp, hk]
  | false =>
    simp only [h, Bool.false_eq_true, if_false]
    have hany : ((votes ++ ([⟨qid, c, v1⟩] : List VoteRow)).any (vote_key qid c)) = true := by
      rw [List.any_append]
      simp [vote_key_self]
    rw [hany]
    simp only [if_true]
    rw [List.map_append]
    have hall : ∀ w ∈ votes, ¬ vote_key qid c w = true := by
      simpa [List.any_eq_false] using h
    have h1 : votes.map
        (fun w => if vote_key qid c w then (⟨qid, c, v2⟩ : VoteRow) else w) = votes :=
      (List.map_congr_left (fun w hw => by simp [hall w hw])).trans (List.map_id votes)
    rw [h1]
    simp [vote_key_self]

/-- With the primary key on (app_queue_id, client_id) intact, a present
key occurs exactly once. -/
theorem countP_key_eq_one (qid : Nat) (c : String) (votes : List VoteRow)
    (hnd : (votes.map (fun v => (v.app_queue_id, v.client_id))).Nodup)
    (h : votes.any (vote_key qid c) = true) :
    votes.countP (vote_key qid c) = 1 := by
  induction votes with
  | nil => cases h
  | cons a t ih =>
    simp only [List.map_cons, List.nodup_cons] at hnd
    obtain ⟨hna, hndt⟩ := hnd
    by_cases hk : vote_key qid c a = true
    · have hz : t.countP (vote_key qid c) = 0 := by
        rw [List.countP_eq_zero]
        intro w hw hkw
        apply hna
        have hkeys : w.app_queue_id = a.app_queue_id ∧ w.client_id = a.client_id := by
          unfold vote_key at hk hkw
          simp only [Bool.and_eq_true, beq_iff_eq] at hk hkw
          exact ⟨hkw.1.trans hk.1.symm, hkw.2.trans hk.2.symm⟩
        have hpair : (a.app_queue_id, a.client_id) = (w.app_queue_id, w.client_id) := by
          rw [hkeys.1, hkeys.2]
        rw [hpair]
        exact List.mem_map_of_mem _ hw
      simp [List.countP_cons, hk, hz]
    · have h2 : t.any (vote_key qid c) = true := by
        cases ha : t.any (vote_key qid c) with
        | true => rfl
        | false =>
            exfalso
            rcases List.any_eq_true.mp h with ⟨w, hw, hkw⟩
            rcases List.mem_cons.mp hw with rfl | hw2
            · exact hk hkw
            · exact absurd hkw ((List.any_eq_false.mp ha) w hw2)
      simp [List.countP_cons, hk, ih hndt h2]

theorem countP_key_overwrite (qid : Nat) (c : String) (v : Int) (l : List VoteRow) :
    (l.map (fun w => if vote_key qid c w then ⟨qid, c, v⟩ else w)).countP
        (vote_key qid c) = l.countP (vote_key qid c) := by
  induction l with
  | nil => rfl
  | cons a t ih =>
    by_cases hk : vote_key qid c a = true
    · simp [List.countP_cons, hk, vote_key_self, ih]
    · simp [List.countP_cons, hk, ih]

/-- After an upsert, the key is present exactly once (given the primary
key held before). -/
theorem upsert_countP_key (qid : Nat) (c : String) (v : Int)
    (votes : List VoteRow)
    (hnd : (votes.map (fun v => (v.app_queue_id, v.client_id))).Nodup) :
    (upsert_vote qid c v votes).countP (vote_key qid c) = 1 := by
  unfold upsert_vote
  cases h : votes.any (vote_key qid c) with
  | true =>
    simp only [h, if_true]
    rw [countP_key_overwrite]
    exact countP_key_eq_one qid c votes hnd h
  | false =>
    simp only [h, Bool.false_eq_true, if_false]
    rw [List.countP_append]
    have h0 : votes.countP (vote_key qid c) = 0 := by
      rw [List.countP_eq_zero]
      simpa [List.any_eq_false] using h
    have h1 : ([⟨qid, c, v⟩] : List VoteRow).countP (vote_key qid c) = 1 := by
      simp [List.countP_cons, vote_key_self]
    omega

/-- Sum of the votes of entry `qid` after overwriting every key row's
value with `v`. -/
theorem sum_votes_overwrite (qid : Nat) (c : String) (v : Int) (l : List VoteRow) :
    (((l.map (fun w => if vote_key qid c w then ⟨qid, c, v⟩ else w)).filter
          (fun w => w.app_queue_id == qid)).map (fun w => w.vote)).sum
      = v * (l.countP (vote_key qid c))
        + ((l.filter (fun w => w.app_queue_id == qid && !(w.client_id == c))).map
            (fun w => w.vote)).sum := by
  induction l with
  | nil => simp
  | cons a t ih =>
    by_cases hk : vote_key qid c a = true
    · have happ : (a.app_queue_id == qid) = true := ((Bool.and_eq_true _ _).mp hk).1
      have hcl : (a.client_id == c) = true := ((Bool.and_eq_true _ _).mp hk).2
      simp only [List.map_cons, hk, if_true, List.filter_cons, List.countP_cons]
      simp only [happ, hcl, Bool.not_true, Bool.and_false, Bool.false_eq_true, if_false,
        beq_self_eq_true, if_true, List.map_cons, List.sum_cons, hk]
      rw [ih]
      push_cast
      ring_nf
    · have hfa : (if vote_key qid c a then (⟨qid, c, v⟩ : VoteRow) else a) = a :=
        if_neg hk
      by_cases happ : (a.app_queue_id == qid) = true
      · have hcl : (a.client_id == c) = false := by
          cases hc : (a.client_id == c) with
          | false => rfl
          | true =>
              exact absurd (show vote_key qid c a = true by
                unfold vote_key
                rw [happ, hc]
                rfl) hk
        simp only [List.map_cons, hfa, List.filter_cons, happ, hcl, Bool.not_false,
          Bool.and_true, if_true, List.map_cons, List.sum_cons, List.countP_cons, hk,
          Bool.false_eq_true, if_false]
        rw [ih]
        ring_nf
      · have happ2 : (a.app_queue_id == qid) = false := by
          simpa using happ
        simp only [List.map_cons, hfa, List.filter_cons, happ2, Bool.false_and,
          Bool.false_eq_true, if_false, List.countP_cons, hk]
        rw [ih]
        simp

/-! ### Claims C8 and C9 -/

/-- C9: for every song, client and integer value: if the song has no
active queue entry, `vote_song` returns `false` and leaves the store
unchanged; if it has one, `vote_song` returns `true`, with no
restriction on the value. -/
theorem vote_on_unqueued_song_rejected (db : DB) (s : Song) (c : String) (v : Int) :
    (check_song_in_app_queue s db = false → vote_song s c v db = (false, db)) ∧
    (check_song_in_app_queue s db = true → (vote_song s c v db).1 = true) := by
  unfold check_song_in_app_queue vote_song get_app_queue_id
  cases hf : db.app_queue.find? (fun q => q.song_id == s.song_id) with
  | none => exact ⟨fun _ => rfl, fun h => by simp at h⟩
  | some q => exact ⟨fun h => by simp at h, fun _ => rfl⟩

/-- Witness for C9: voting on the unqueued song C in `exDB1` is rejected
without a state change. -/
theorem vote_on_unqueued_song_rejected_witness :
    check_song_in_app_queue ⟨"C", "cc", "z"⟩ exDB1 = false ∧
    vote_song ⟨"C", "cc", "z"⟩ "c9" 7 exDB1 = (false, exDB1) :=
  ⟨by decide,
    (vote_on_unqueued_song_rejected exDB1 ⟨"C", "cc", "z"⟩ "c9" 7).1 (by decide)⟩

/-- C8: for a queued song, casting vote `v1` and then `v2` from the same
client leaves the state identical to casting only `v2` (last write
wins); moreover the entry's vote sum counts that client exactly once
(one key row, contributing `v2` on top of the other clients' votes). -/
theorem double_vote_last_write_wins (db : DB) (s : Song) (c : String) (v1 v2 : Int)
    (hwf : db.wf) (hin : check_song_in_app_queue s db = true) :
    (vote_song s c v2 (vote_song s c v1 db).2).2 = (vote_song s c v2 db).2 ∧
    (∀ qid, get_app_queue_id s.song_id db = some qid →
      ((vote_song s c v2 (vote_song s c v1 db).2).2.votes.countP (vote_key qid c)) = 1 ∧
      voteSumFor (vote_song s c v2 (vote_song s c v1 db).2).2 qid
        = v2 + ((db.votes.filter
            (fun w => w.app_queue_id == qid && !(w.client_id == c))).map
              (fun w => w.vote)).sum) := by
  obtain ⟨q, hq⟩ : ∃ q, db.app_queue.find? (fun x => x.song_id == s.song_id) = some q := by
    unfold check_song_in_app_queue at hin
    exact Option.isSome_iff_exists.mp hin
  have hid : get_app_queue_id s.song_id db = some q.id := by
    unfold get_app_queue_id
    rw [hq]
    rfl
  have hnd : (db.votes.map (fun v => (v.app_queue_id, v.client_id))).Nodup :=
    hwf.2.2.2.2.2
  have h1 : (vote_song s c v1 db).2 = { db with votes := upsert_vote q.id c v1 db.votes } := by
    unfold vote_song
    rw [hid]
  have hid2 : get_app_queue_id s.song_id
      { db with votes := upsert_vote q.id c v1 db.votes } = some q.id := hid
  have h2 : (vote_song s c v2 { db with votes := upsert_vote q.id c v1 db.votes }).2
      = { db with votes := upsert_vote q.id c v2 (upsert_vote q.id c v1 db.votes) } := by
    unfold vote_song
    rw [hid2]
  have h3 : (vote_song s c v2 db).2 = { db with votes := upsert_vote q.id c v2 db.votes } := by
    unfold vote_song
    rw [hid]
  constructor
  · rw [h1, h2, h3, upsert_upsert]
  · intro qid hqid
    have hqq : qid = q.id := by
      have h4 := hid.symm.trans hqid
      injection h4 with h5
      exact h5.symm
    subst hqq
    have hv : ∀ X : List VoteRow, ({ db with votes := X } : DB).votes = X := fun _ => rfl
    constructor
    · rw [h1, h2, hv, upsert_upsert]
      exact upsert_countP_key q.id c v2 db.votes hnd
    · rw [h1, h2]
      unfold voteSumFor
      rw [hv, upsert_upsert]
      unfold upsert_vote
      cases hany : db.votes.any (vote_key q.id c) with
      | true =>
        rw [if_pos rfl]
        rw [sum_votes_overwrite, countP_key_eq_one q.id c db.votes hnd hany]
        push_cast
        ring_nf
      | false =>
        rw [if_neg Bool.false_ne_true]
        rw [List.filter_append]
        have hrow : (([⟨q.id, c, v2⟩] : List VoteRow).filter
            (fun w => w.app_queue_id == q.id)) = [⟨q.id, c, v2⟩] := by
          simp
        rw [hrow, List.map_append, List.sum_append]
        have hall : ∀ w ∈ db.votes, ¬ vote_key q.id c w = true := by
          simpa [List.any_eq_false] using hany
        have hfeq : db.votes.filter (fun w => w.app_queue_id == q.id)
            = db.votes.filter (fun w => w.app_queue_id == q.id && !(w.client_id == c)) := by
          apply List.filter_congr
          intro w hw
          cases happ : (w.app_queue_id == q.id) with
          | false => rfl
          | true =>
            cases hcl : (w.client_id == c) with
            | false => rfl
            | true =>
              exact absurd (show vote_key q.id c w = true by
                unfold vote_key
                rw [happ, hcl]
                rfl) (hall w hw)
        rw [hfeq]
        simp only [List.map_cons, List.map_nil, List.sum_cons, List.sum_nil]
        ring_nf

/-- Witness for C8: on `exDB1`, voting 2 then -3 as client c1 on song A
equals voting -3 once. -/
theorem double_vote_last_write_wins_witness :
    exDB1.wf ∧ check_song_in_app_queue ⟨"A", "a", "x"⟩ exDB1 = true ∧
    (vote_song ⟨"A", "a", "x"⟩ "c1" (-3)
        (vote_song ⟨"A", "a", "x"⟩ "c1" 2 exDB1).2).2
      = (vote_song ⟨"A", "a", "x"⟩ "c1" (-3) exDB1).2 :=
  ⟨by decide, by decide,
    (double_vote_last_write_wins exDB1 ⟨"A", "a", "x"⟩ "c1" 2 (-3)
      (by decide) (by decide)).1⟩

/-! ### Claims C5, C6, C7 (admission control) -/

/-- C5: for a song whose stored `last_played` is set, admission returns
`false` when `now - last_played` is under 30 minutes (1800 s) and `true`
at 30 minutes or more, the song not being already queued. -/
theorem admission_replay_guard_boundary (db : DB) (song : Song) (now lp : Int)
    (r : SongRow) (hrow : find_song_row song.song_id db = some r)
    (hlp : r.last_played = some lp)
    (hnq : check_song_in_app_queue song db = false) :
    (now - lp < 1800 →
      bl_add_song_to_app_queue (some song) now db = Except.ok (false, db)) ∧
    (1800 ≤ now - lp →
      ∃ db2, bl_add_song_to_app_queue (some song) now db = Except.ok (true, db2)) := by
  have hadd : add_song song db = (some lp, db) := by
    unfold add_song
    rw [hrow]
    show (r.last_played, db) = (some lp, db)
    rw [hlp]
  have hfind : db.app_queue.find? (fun q => q.song_id == song.song_id) = none := by
    unfold check_song_in_app_queue at hnq
    cases hcase : db.app_queue.find? (fun q => q.song_id == song.song_id) with
    | none => rfl
    | some q => rw [hcase] at hnq; simp at hnq
  constructor
  · intro hlt
    simp only [bl_add_song_to_app_queue, hadd]
    simp [hnq, hlt]
  · intro hge
    have hcond : ((find_song_row song.song_id db).isSome
        && db.app_queue.all (fun q => !(q.song_id == song.song_id))) = true := by
      rw [hrow]
      simp only [Option.isSome_some, Bool.true_and]
      rw [List.all_eq_true]
      intro q hq
      have hne := List.find?_eq_none.mp hfind q hq
      simp only [Bool.not_eq_true] at hne ⊢
      simp [hne]
    refine ⟨{ db with
        app_queue := db.app_queue ++ [⟨db.next_queue_id, song.song_id⟩],
        next_queue_id := db.next_queue_id + 1 }, ?_⟩
    simp only [bl_add_song_to_app_queue, hadd]
    rw [if_neg (by simp [hnq])]
    rw [if_neg (by simp [not_lt.mpr hge])]
    unfold db_add_song_to_app_queue
    rw [if_pos hcond]

/-- A one-song catalog with `last_played = 0` and an empty queue. -/
def exDB2 : DB := ⟨[⟨"A", "a", "x", some 0⟩], [], [], [], 1, 1⟩

/-- Witness for C5: admitting at 29 minutes (1740 s) is rejected,
admitting at exactly 30 minutes (1800 s) is accepted. -/
theorem admission_replay_guard_boundary_witness :
    find_song_row "A" exDB2 = some ⟨"A", "a", "x", some 0⟩ ∧
    check_song_in_app_queue ⟨"A", "a", "x"⟩ exDB2 = false ∧
    bl_add_song_to_app_queue (some ⟨"A", "a", "x"⟩) 1740 exDB2
      = Except.ok (false, exDB2) ∧
    (∃ db2, bl_add_song_to_app_queue (some ⟨"A", "a", "x"⟩) 1800 exDB2
      = Except.ok (true, db2)) := by
  refine ⟨rfl, by decide, ?_, ?_⟩
  · exact (admission_replay_guard_boundary exDB2 ⟨"A", "a", "x"⟩ 1740 0
      ⟨"A", "a", "x", some 0⟩ rfl rfl (by decide)).1 (by decide)
  · exact (admission_replay_guard_boundary exDB2 ⟨"A", "a", "x"⟩ 1800 0
      ⟨"A", "a", "x", some 0⟩ rfl rfl (by decide)).2 (by decide)

/-- C7: admitting a song that already has an active queue entry returns
`false`, modifies nothing, and the song still has exactly one entry. -/
theorem admit_duplicate_rejected (db : DB) (song : Song) (now : Int)
    (hwf : db.wf) (hin : check_song_in_app_queue song db = true) :
    bl_add_song_to_app_queue (some song) now db = Except.ok (false, db) ∧
    (db.app_queue.map QueueRow.song_id).count song.song_id = 1 := by
  obtain ⟨q, hq⟩ : ∃ q, db.app_queue.find? (fun x => x.song_id == song.song_id) = some q := by
    unfold check_song_in_app_queue at hin
    exact Option.isSome_iff_exists.mp hin
  have hqmem : q ∈ db.app_queue := List.mem_of_find?_eq_some hq
  have hqid : q.song_id = song.song_id := by
    have := List.find?_some hq
    simpa using this
  obtain ⟨r, hr⟩ : ∃ r, find_song_row song.song_id db = some r := by
    have := (hwf.2.2.2.1 q hqmem).2
    rw [hqid] at this
    exact Option.isSome_iff_exists.mp this
  have hadd : add_song song db = (r.last_played, db) := by
    unfold add_song
    rw [hr]
  constructor
  · simp only [bl_add_song_to_app_queue, hadd]
    simp [hin]
  · rw [← hqid]
    exact List.count_eq_one_of_mem hwf.2.2.1 (List.mem_map_of_mem _ hqmem)

/-- Witness for C7: admitting the queued song A in `exDB1` is rejected
and its entry stays unique. -/
theorem admit_duplicate_rejected_witness :
    exDB1.wf ∧ check_song_in_app_queue ⟨"A", "a", "x"⟩ exDB1 = true ∧
    bl_add_song_to_app_queue (some ⟨"A", "a", "x"⟩) 999 exDB1
      = Except.ok (false, exDB1) ∧
    (exDB1.app_queue.map QueueRow.song_id).count "A" = 1 := by
  have h := admit_duplicate_rejected exDB1 ⟨"A", "a", "x"⟩ 999 (by decide) (by decide)
  exact ⟨by decide, by decide, h.1, h.2⟩

/-- C6 counterexample: for an unresolvable song identifier, admission
raises `Exception("Track not found on Spotify.")` (modelled as
`Except.error`) rather than returning a boolean, contradicting the
claimed propagation policy. -/
theorem admission_raises_on_unresolvable :
    bl_add_song_to_app_queue none 0 exDB1
      = Except.error "Track not found on Spotify." := rfl

/-- C6 amended: admission returns a boolean outcome without raising for
every resolvable song (covering the already-queued and
played-too-recently rejections), raises exactly for an unresolvable
identifier, and voting always returns a boolean. -/
theorem admission_vote_propagation (db : DB) (now : Int) :
    (∀ song : Song, ∃ b db2,
        bl_add_song_to_app_queue (some song) now db = Except.ok (b, db2)) ∧
    bl_add_song_to_app_queue none now db
      = Except.error "Track not found on Spotify." ∧
    (∀ (s : Song) (c : String) (v : Int), bl_vote_song s c v db = vote_song s c v db) := by
  refine ⟨fun song => ?_, rfl, fun s c v => rfl⟩
  simp only [bl_add_song_to_app_queue]
  by_cases h1 : check_song_in_app_queue song (add_song song db).2 = true
  · exact ⟨false, (add_song song db).2, by simp [h1]⟩
  · by_cases h2 : (match (add_song song db).1 with
      | some lp => decide (now - lp < 1800)
      | none => false) = true
    · exact ⟨false, (add_song song db).2, by simp [h1, h2]⟩
    · refine ⟨(db_add_song_to_app_queue song (add_song song db).2).1,
        (db_add_song_to_app_queue song (add_song song db).2).2, ?_⟩
      simp [h1, h2]

/-! ### Reconciliation helper lemmas -/

theorem get_oldest_song_resolves (db : DB) (song : Song)
    (h : get_oldest_song db = some song) :
    ∃ r, find_song_row song.song_id db = some r := by
  unfold get_oldest_song at h
  cases hh : ((joined_queue db).insertionSort idOrder).head? with
  | none => rw [hh] at h; cases h
  | some p =>
      rw [hh] at h
      have hps : (⟨p.2.id, p.2.name, p.2.artist⟩ : Song) = song := by simpa using h
      have hpmem : p ∈ joined_queue db := by
        have hmem : p ∈ (joined_queue db).insertionSort idOrder := by
          cases hl : (joined_queue db).insertionSort idOrder with
          | nil => rw [hl] at hh; cases hh
          | cons a t =>
              rw [hl] at hh
              have hap : a = p := by simpa using hh
              subst hap
              exact List.mem_cons_self a t
        simpa using hmem
      obtain ⟨-, hp2⟩ := (mem_joined_queue db p).mp hpmem
      have hid : p.2.id = p.1.song_id := (find_song_row_id _ db _ hp2).1
      refine ⟨p.2, ?_⟩
      rw [← hps]
      show find_song_row p.2.id db = some p.2
      rw [hid]
      exact hp2

/-- A song produced by selection resolves in the catalog. -/
theorem pick_next_song_resolves (db : DB) (song : Song)
    (h : pick_next_song db = some song) :
    ∃ r, find_song_row song.song_id db = some r := by
  unfold pick_next_song at h
  cases hgm : get_most_voted_song db with
  | none =>
      rw [hgm] at h
      exact get_oldest_song_resolves db song h
  | some id =>
      rw [hgm] at h
      replace h : (if id = "" then get_oldest_song db
          else match get_song id db with
            | some c => some c
            | none => get_oldest_song db) = some song := h
      by_cases hid : id = ""
      · rw [if_pos hid] at h
        exact get_oldest_song_resolves db song h
      · rw [if_neg hid] at h
        cases hgs : get_song id db with
        | none =>
            rw [hgs] at h
            exact get_oldest_song_resolves db song h
        | some c =>
            rw [hgs] at h
            have hcs : c = song := by simpa using h
            unfold get_song at hgs
            cases hfr : find_song_row id db with
            | none => rw [hfr] at hgs; cases hgs
            | some r =>
                rw [hfr] at hgs
                have hcr : (⟨r.id, r.name, r.artist⟩ : Song) = c := by simpa using hgs
                refine ⟨r, ?_⟩
                rw [← hcs, ← hcr]
                show find_song_row r.id db = some r
                rw [(find_song_row_id id db r hfr).1]
                exact hfr

theorem add_last_ledger_queue (id : String) (db : DB) :
    ((add_last_added_song_id id db).2).app_queue = db.app_queue := by
  unfold add_last_added_song_id
  split <;> rfl

theorem add_last_ledger_votes (id : String) (db : DB) :
    ((add_last_added_song_id id db).2).votes = db.votes := by
  unfold add_last_added_song_id
  split <;> rfl

theorem add_last_ledger_songs (id : String) (db : DB) :
    ((add_last_added_song_id id db).2).songs = db.songs := by
  unfold add_last_added_song_id
  split <;> rfl

theorem add_last_ledger_ledger (id : String) (db : DB)
    (h : (find_song_row id db).isSome = true) :
    ((add_last_added_song_id id db).2).last_added_songs
      = db.last_added_songs ++ [⟨db.next_ledger_id, id⟩] := by
  unfold add_last_added_song_id
  rw [if_pos h]

theorem remove_song_queue (s : Song) (db : DB) :
    ((remove_song_from_app_queue s db).2).app_queue
      = db.app_queue.filter (fun q => !(q.song_id == s.song_id)) := rfl

theorem remove_song_votes (s : Song) (db : DB) :
    ((remove_song_from_app_queue s db).2).votes
      = db.votes.filter
          (fun v => !((db.app_queue.filter (fun q => q.song_id == s.song_id)).any
            (fun q => q.id == v.app_queue_id))) := rfl

theorem remove_song_songs (s : Song) (db : DB) :
    ((remove_song_from_app_queue s db).2).songs = db.songs := rfl

theorem remove_song_ledger (s : Song) (db : DB) :
    ((remove_song_from_app_queue s db).2).last_added_songs
      = db.last_added_songs := rfl

theorem clear_votes_of_not_queued (s : Song) (db : DB)
    (h : db.app_queue.find? (fun q => q.song_id == s.song_id) = none) :
    clear_votes s db = (true, db) := by
  unfold clear_votes get_app_queue_id
  rw [h]
  rfl

theorem set_last_played_queue (s : Song) (t : Int) (db : DB) :
    (set_last_played s t db).app_queue = db.app_queue := rfl

theorem set_last_played_votes (s : Song) (t : Int) (db : DB) :
    (set_last_played s t db).votes = db.votes := rfl

theorem set_last_played_ledger (s : Song) (t : Int) (db : DB) :
    (set_last_played s t db).last_added_songs = db.last_added_songs := rfl

theorem set_last_played_songs (s : Song) (t : Int) (db : DB) :
    (set_last_played s t db).songs
      = db.songs.map
          (fun r => if r.id == s.song_id then { r with last_played := some t } else r) := rfl

/-! ### Claims C3 and C4 (the reconciliation tick) -/

/-- C4: when the adapter push of the selected candidate fails, the tick
reports no action (`false`) and leaves the whole store unchanged, so the
same candidate is reconsidered next tick. -/
theorem push_failure_leaves_state_unchanged (db : DB) (snapshot : List Song)
    (push : Song → Bool) (now : Int) (song : Song)
    (hpick : pick_next_song db = some song) (hpush : push song = false) :
    check_sp_queue snapshot push now db = (false, db) := by
  simp only [check_sp_queue, run_injection]
  split
  · simp [hpick, hpush]
  · rfl

/-- Witness for C4: on `exDB1` with a failing push the tick is a no-op. -/
theorem push_failure_leaves_state_unchanged_witness :
    pick_next_song exDB1 = some ⟨"A", "a", "x"⟩ ∧
    check_sp_queue [] (fun _ => false) 100 exDB1 = (false, exDB1) := by
  refine ⟨by decide, ?_⟩
  exact push_failure_leaves_state_unchanged exDB1 [] (fun _ => false) 100
    ⟨"A", "a", "x"⟩ (by decide) rfl

/-- C3: a tick whose pending-next guard passes, whose selection yields a
candidate and whose push succeeds reports action taken; afterwards the
candidate has no queue entry, all its votes are gone, it is the most
recent ledger record, and its `last_played` equals the push timestamp. -/
theorem successful_injection_postconditions (db : DB) (snapshot : List Song)
    (push : Song → Bool) (now : Int) (song : Song)
    (hguard : (get_last_added_song_ids 2 db).length ≤ 1
        ∨ (snapshot.countP (fun s => decide (s.song_id ∈ get_last_added_song_ids 2 db))) ≤ 1)
    (hpick : pick_next_song db = some song) (hpush : push song = true) :
    (check_sp_queue snapshot push now db).1 = true ∧
    check_song_in_app_queue song (check_sp_queue snapshot push now db).2 = false ∧
    (∀ v ∈ (check_sp_queue snapshot push now db).2.votes,
       ∀ q ∈ db.app_queue, q.song_id = song.song_id → v.app_queue_id ≠ q.id) ∧
    get_last_added_song_ids 1 (check_sp_queue snapshot push now db).2 = [song.song_id] ∧
    (∃ r2 ∈ (check_sp_queue snapshot push now db).2.songs,
       r2.id = song.song_id ∧ r2.last_played = some now) := by
  obtain ⟨r, hfr⟩ := pick_next_song_resolves db song hpick
  have hfrS : (find_song_row song.song_id db).isSome = true := by rw [hfr]; rfl
  have hLq : ((add_last_added_song_id song.song_id db).2).app_queue = db.app_queue :=
    add_last_ledger_queue _ _
  have hRq : ((remove_song_from_app_queue song
      (add_last_added_song_id song.song_id db).2).2).app_queue
      = db.app_queue.filter (fun q => !(q.song_id == song.song_id)) := by
    rw [remove_song_queue, hLq]
  have hfq : ((remove_song_from_app_queue song
      (add_last_added_song_id song.song_id db).2).2).app_queue.find?
        (fun q => q.song_id == song.song_id) = none := by
    rw [hRq]
    rw [List.find?_eq_none]
    intro a ha
    have := List.of_mem_filter ha
    simp only [Bool.not_eq_true'] at this
    simp [this]
  have hclear : clear_votes song (remove_song_from_app_queue song
      (add_last_added_song_id song.song_id db).2).2
      = (true, (remove_song_from_app_queue song
          (add_last_added_song_id song.song_id db).2).2) :=
    clear_votes_of_not_queued _ _ hfq
  have htick : check_sp_queue snapshot push now db
      = (true, set_last_played song now (remove_song_from_app_queue song
          (add_last_added_song_id song.song_id db).2).2) := by
    simp only [check_sp_queue]
    rw [if_pos hguard]
    simp only [run_injection, hpick, hpush, if_pos]
    rw [hclear]
  refine ⟨by rw [htick], ?_, ?_, ?_, ?_⟩
  · unfold check_song_in_app_queue
    rw [htick]
    show ((set_last_played song now _).app_queue.find?
      (fun q => q.song_id == song.song_id)).isSome = false
    rw [set_last_played_queue, hfq]
    rfl
  · intro v hv q hq hqs
    rw [htick] at hv
    have hv2 : v ∈ (set_last_played song now (remove_song_from_app_queue song
        (add_last_added_song_id song.song_id db).2).2).votes := hv
    rw [set_last_played_votes, remove_song_votes, add_last_ledger_votes, hLq] at hv2
    have hnot := List.of_mem_filter hv2
    simp only [Bool.not_eq_true'] at hnot
    have hqmem : q ∈ db.app_queue.filter (fun x => x.song_id == song.song_id) :=
      List.mem_filter.mpr ⟨hq, by simp [hqs]⟩
    intro hEq
    exact absurd (show (db.app_queue.filter (fun x => x.song_id == song.song_id)).any
        (fun x => x.id == v.app_queue_id) = true from
      List.any_eq_true.mpr ⟨q, hqmem, by simp [hEq]⟩) (by simp [hnot])
  · rw [htick]
    have hled : (set_last_played song now (remove_song_from_app_queue song
        (add_last_added_song_id song.song_id db).2).2).last_added_songs
        = db.last_added_songs ++ [⟨db.next_ledger_id, song.song_id⟩] := by
      rw [set_last_played_ledger, remove_song_ledger, add_last_ledger_ledger _ _ hfrS]
    show get_last_added_song_ids 1 (set_last_played song now
      (remove_song_from_app_queue song (add_last_added_song_id song.song_id db).2).2)
      = [song.song_id]
    unfold get_last_added_song_ids
    rw [hled, List.reverse_append]
    simp
  · have hrmem : r ∈ db.songs := (find_song_row_id _ db _ hfr).2
    have hrid : r.id = song.song_id := (find_song_row_id _ db _ hfr).1
    have hsongs : (set_last_played song now (remove_song_from_app_queue song
        (add_last_added_song_id song.song_id db).2).2).songs
        = db.songs.map (fun r2 => if r2.id == song.song_id
            then { r2 with last_played := some now } else r2) := by
      rw [set_last_played_songs, remove_song_songs, add_last_ledger_songs]
    refine ⟨{ r with last_played := some now }, ?_, hrid, rfl⟩
    rw [htick]
    show { r with last_played := some now } ∈ (set_last_played song now
      (remove_song_from_app_queue song (add_last_added_song_id song.song_id db).2).2).songs
    rw [hsongs]
    have hstep := List.mem_map_of_mem (fun r2 : SongRow => if r2.id == song.song_id
        then { r2 with last_played := some now } else r2) hrmem
    simpa [hrid] using hstep

/-- Witness for C3: a tick on `exDB1` with an empty snapshot and a
successful push injects song A. -/
theorem successful_injection_postconditions_witness :
    ((get_last_added_song_ids 2 exDB1).length ≤ 1
      ∨ (([] : List Song).countP
          (fun s => decide (s.song_id ∈ get_last_added_song_ids 2 exDB1))) ≤ 1) ∧
    pick_next_song exDB1 = some ⟨"A", "a", "x"⟩ ∧
    (check_sp_queue [] (fun _ => true) 100 exDB1).1 = true ∧
    check_song_in_app_queue ⟨"A", "a", "x"⟩
      (check_sp_queue [] (fun _ => true) 100 exDB1).2 = false ∧
    get_last_added_song_ids 1 (check_sp_queue [] (fun _ => true) 100 exDB1).2 = ["A"] := by
  have h := successful_injection_postconditions exDB1 [] (fun _ => true) 100
    ⟨"A", "a", "x"⟩ (by decide) (by decide) rfl
  exact ⟨by decide, by decide, h.1, h.2.1, h.2.2.2.1⟩

/-! ### Claim C2 (pending-next detection) -/

/-- Ledger with two records A then B; song C queued. -/
def exDB3 : DB :=
  ⟨[⟨"A", "a", "x", none⟩, ⟨"B", "b", "y", none⟩, ⟨"C", "c", "z", none⟩],
    [⟨1, "C"⟩], [], [⟨1, "A"⟩, ⟨2, "B"⟩], 2, 3⟩

/-- A three-item external snapshot: a foreign track X, then A and B. -/
def exSnap3 : List Song := [⟨"X", "xx", "q"⟩, ⟨"A", "a", "x"⟩, ⟨"B", "b", "y"⟩]

/-- C2 counterexample: `exDB3` has 2 ledger records and only one
identifier of the snapshot's FIRST TWO items (X, A) appears among the
last 2 injected, so the claim says the tick proceeds to selection and
injection (song C would be pushed); but the code counts matches over the
whole snapshot (A and B both match) and skips, mutating nothing. -/
theorem pending_next_first_two_items_refuted :
    2 ≤ exDB3.last_added_songs.length ∧
    ((((exSnap3.take 2).map (fun s => s.song_id)).dedup.filter
        (fun id => decide (id ∈ get_last_added_song_ids 2 exDB3))).length < 2) ∧
    pick_next_song exDB3 = some ⟨"C", "c", "z"⟩ ∧
    check_sp_queue exSnap3 (fun _ => true) 0 exDB3 = (false, exDB3) :=
  ⟨by decide, by decide, by decide, by decide⟩

/-- C2 amended: the tick proceeds to selection-and-injection iff fewer
than 2 ledger records exist or at most one item of the WHOLE snapshot
(counted with multiplicity) has its identifier among the last 2 injected;
otherwise it returns `false` and mutates nothing. -/
theorem pending_next_detection (db : DB) (snapshot : List Song)
    (push : Song → Bool) (now : Int) :
    (db.last_added_songs.length < 2
        ∨ (snapshot.countP
            (fun s => decide (s.song_id ∈ get_last_added_song_ids 2 db))) ≤ 1 →
      check_sp_queue snapshot push now db = run_injection push now db) ∧
    (¬ (db.last_added_songs.length < 2
        ∨ (snapshot.countP
            (fun s => decide (s.song_id ∈ get_last_added_song_ids 2 db))) ≤ 1) →
      check_sp_queue snapshot push now db = (false, db)) := by
  have hlen : (get_last_added_song_ids 2 db).length
      = min 2 db.last_added_songs.length := by
    unfold get_last_added_song_ids
    rw [List.length_map, List.length_take, List.length_reverse]
  constructor
  · intro h
    unfold check_sp_queue
    rw [if_pos]
    rcases h with h | h
    · exact Or.inl (by omega)
    · exact Or.inr h
  · intro h
    rw [not_or, not_lt, not_le] at h
    unfold check_sp_queue
    rw [if_neg]
    rintro (h1 | h2)
    · omega
    · omega

/-- Witness for C2 (amended): on `exDB3` with snapshot `exSnap3` the skip
side of the rule fires and the tick is a no-op. -/
theorem pending_next_detection_witness :
    ¬ (exDB3.last_added_songs.length < 2
        ∨ (exSnap3.countP
            (fun s => decide (s.song_id ∈ get_last_added_song_ids 2 exDB3))) ≤ 1) ∧
    check_sp_queue exSnap3 (fun _ => true) 0 exDB3 = (false, exDB3) :=
  ⟨by decide, (pending_next_detection exDB3 exSnap3 (fun _ => true) 0).2 (by decide)⟩

/-! ### Claim C10 (displayed head agrees with selection) -/

/-- C10: for every well-formed state with a non-empty queue and every
client, the song of the first element of `get_app_queue` (sorted by vote
sum descending, ordinal ascending) is the song `_pick_next_song`
returns. -/
theorem queue_head_agrees_with_selection (db : DB) (client : Option String)
    (hwf : db.wf) (hne : db.app_queue ≠ []) :
    (get_app_queue client db).head?.map (fun e => e.1) = pick_next_song db := by
  obtain ⟨hsnd, hqid, hqsid, hqok, hfk, hpk⟩ := hwf
  have hjoin_mem : ∀ q ∈ db.app_queue, ∃ r2, (q, r2) ∈ joined_queue db := by
    intro q hq
    obtain ⟨r2, hr2⟩ := Option.isSome_iff_exists.mp (hqok q hq).2
    exact ⟨r2, (mem_joined_queue db (q, r2)).mpr ⟨hq, hr2⟩⟩
  have hjne : joined_queue db ≠ [] := by
    obtain ⟨q0, hq0⟩ := List.exists_mem_of_ne_nil _ hne
    obtain ⟨r2, hmem⟩ := hjoin_mem q0 hq0
    exact List.ne_nil_of_mem hmem
  cases hh : ((joined_queue db).insertionSort (pairOrder db)).head? with
  | none =>
      rw [List.head?_eq_none_iff] at hh
      exact absurd ((insertionSort_nil_iff _ _).mp hh) hjne
  | some p =>
      obtain ⟨hpmem, hpmin⟩ := head_insertionSort_min (pairOrder db)
        (pairOrder_total db) (pairOrder_trans db) (joined_queue db) p hh
      obtain ⟨hp1, hp2⟩ := (mem_joined_queue db p).mp hpmem
      have hLHS : (get_app_queue client db).head?.map (fun e => e.1)
          = some ⟨p.2.id, p.2.name, p.2.artist⟩ := by
        unfold get_app_queue
        rw [List.head?_map, hh]
        rfl
      rw [hLHS]
      have hmin2 : ∀ q2 ∈ db.app_queue, qOrder db p.1 q2 := by
        intro q2 hq2
        obtain ⟨r2, hmem⟩ := hjoin_mem q2 hq2
        exact hpmin (q2, r2) hmem
      cases hv : db.votes with
      | cons v vt =>
          have hvne : db.votes ≠ [] := by
            rw [hv]
            exact List.cons_ne_nil v vt
          obtain ⟨q, hq, hgm, hqmin⟩ := get_most_voted_spec db hfk hvne
          have h1 : qOrder db q p.1 := hqmin p.1 hp1
          have h2 : qOrder db p.1 q := hmin2 q hq
          have hid : q.id = p.1.id := qOrder_antisymm_id db q p.1 h1 h2
          have hqp : q = p.1 := List.inj_on_of_nodup_map hqid hq hp1 hid
          obtain ⟨hne2, hsome⟩ := hqok q hq
          obtain ⟨r, hr⟩ := Option.isSome_iff_exists.mp hsome
          unfold pick_next_song
          rw [hgm]
          simp only [if_neg hne2]
          unfold get_song
          rw [hr]
          have hr2 : r = p.2 := by
            rw [hqp] at hr
            have := hr.symm.trans hp2
            injection this
          rw [hr2]
          rfl
      | nil =>
          have hgm : get_most_voted_song db = none := by
            unfold get_most_voted_song
            rw [if_pos (by simp [hv])]
          unfold pick_next_song
          rw [hgm]
          cases hh2 : ((joined_queue db).insertionSort idOrder).head? with
          | none =>
              rw [List.head?_eq_none_iff] at hh2
              exact absurd ((insertionSort_nil_iff _ _).mp hh2) hjne
          | some p1 =>
              obtain ⟨hp1mem, hp1min⟩ := head_insertionSort_min idOrder
                idOrder_total idOrder_trans (joined_queue db) p1 hh2
              obtain ⟨hp11, hp12⟩ := (mem_joined_queue db p1).mp hp1mem
              have hsum : ∀ qid2, voteSumFor db qid2 = 0 := by
                intro qid2
                unfold voteSumFor
                rw [hv]
                rfl
              have hle1 : p.1.id ≤ p1.1.id := by
                have h3 := hpmin p1 hp1mem
                unfold pairOrder qOrder at h3
                simp only [hsum] at h3
                omega
              have hle2 : p1.1.id ≤ p.1.id := hp1min p hpmem
              have hidq : p.1.id = p1.1.id := le_antisymm hle1 hle2
              have hq1 : p.1 = p1.1 := List.inj_on_of_nodup_map hqid hp1 hp11 hidq
              have hr2 : p.2 = p1.2 := by
                rw [hq1] at hp2
                have := hp2.symm.trans hp12
                injection this
              unfold get_oldest_song
              rw [hh2, hr2]
              rfl

/-- Witness for C10: on `exDB1` the displayed head is song A, the same
song selection returns. -/
theorem queue_head_agrees_with_selection_witness :
    exDB1.wf ∧ exDB1.app_queue ≠ [] ∧
    (get_app_queue (some "c1") exDB1).head?.map (fun e => e.1) = pick_next_song exDB1 :=
  ⟨by decide, by decide,
    queue_head_agrees_with_selection exDB1 (some "c1") (by decide) (by decide)⟩

end PartyQueue
